import Mathlib

/-!
# Verification of the Notion → GeoJSON feed service (`src/app.py`)

This file gives a shallow embedding of the pipeline in `src/app.py`:

* a JSON value type `JVal` standing for the Python values the program
  manipulates (dicts, lists, strings, numbers, booleans, `None`);
  JSON numbers are modelled as integers, which is enough for every
  property under study;
* Python-semantics helpers (`pyGetD`, `pyIndex`, `pyContains`,
  `pyIter`, truthiness, `str()`-conversion, `str.join`), written in an
  `Except String` monad whose `error` case stands for a raised Python
  exception (the message text is informative only — no theorem depends
  on exact message wording);
* the text-extraction helpers `plain_from_rich_or_title`,
  `plain_from_select`, `plain_from_multi_select`, `plain_from_people`,
  `plain_from_rollup`, `read_text_flex`;
* the polygon reader `read_polygon_geometry`, with `json.loads`
  abstracted as a parameter `jl : String → Option JVal` (the Python
  `json` library is external to the repository);
* the paginated fetcher `fetch_all_pages`, the upstream being modelled
  as a function from request index to HTTP response, with an explicit
  fuel bound on loop iterations and an event trace recording requests
  and sleeps;
* the collection builder `build_geojson` with its per-record
  try/except skip behaviour (and a variant that also returns the
  diagnostic log of the `print` calls).

The mutual recursion `_read_text_flex` ↔ `_plain_from_rollup` is
implemented by a fuel-indexed kernel `rollupN` (fuel counts nested
rollup-array levels only); the exported functions instantiate the fuel
with `jsize` of the argument, which is always sufficient, and a
fuel-stability theorem recovers the exact defining equations of the
Python source.
-/

set_option autoImplicit false

namespace NotionGeo

/-- JSON / Python values. Numbers are modelled as integers. -/
inductive JVal where
  | null
  | bool (b : Bool)
  | num (n : Int)
  | str (s : String)
  | arr (items : List JVal)
  | obj (fields : List (String × JVal))
  deriving Repr

namespace JVal

/-- Python truthiness (`bool(x)`) of a JSON value. -/
def truthy : JVal → Bool
  | .null => false
  | .bool b => b
  | .num n => n != 0
  | .str s => s != ""
  | .arr l => !l.isEmpty
  | .obj l => !l.isEmpty

end JVal

/-- Python `d.get(k)`: `none` when the key is absent,
an `AttributeError` when the value is not a dict. -/
def pyGetOpt (v : JVal) (k : String) : Except String (Option JVal) :=
  match v with
  | .obj l => .ok (l.lookup k)
  | _ => .error "AttributeError: no attribute get"

/-- Python `d.get(k, dflt)`. -/
def pyGetD (v : JVal) (k : String) (dflt : JVal) : Except String JVal :=
  match v with
  | .obj l => .ok ((l.lookup k).getD dflt)
  | _ => .error "AttributeError: no attribute get"

/-- Python `d[k]` with a string key: `KeyError` when a dict lacks the key,
`TypeError` on every non-dict value. -/
def pyIndex (v : JVal) (k : String) : Except String JVal :=
  match v with
  | .obj l =>
    match l.lookup k with
    | some w => .ok w
    | none => .error "KeyError"
  | _ => .error "TypeError: bad subscript"

/-- Substring test used by the Python `in` test on strings. -/
def strContainsSub (hay needle : String) : Bool :=
  decide (needle.data <:+: hay.data)

/-- Python `k in v` for a string `k`: key membership for dicts, element
membership for lists (a string equals only an equal string), substring
test for strings, `TypeError` otherwise. -/
def pyContains (k : String) (v : JVal) : Except String Bool :=
  match v with
  | .obj l => .ok (l.any (fun p => p.1 == k))
  | .arr l => .ok (l.any (fun x => match x with | .str s => s == k | _ => false))
  | .str s => .ok (strContainsSub s k)
  | _ => .error "TypeError: argument is not iterable"

/-- Python iteration over a value (`for x in v`, `list.extend(v)`):
lists yield their elements, strings their one-character substrings,
dicts their keys; other values raise `TypeError`. -/
def pyIter (v : JVal) : Except String (List JVal) :=
  match v with
  | .arr l => .ok l
  | .str s => .ok (s.data.map (fun c => JVal.str (String.singleton c)))
  | .obj l => .ok (l.map (fun p => JVal.str p.1))
  | _ => .error "TypeError: not iterable"

mutual

/-- Structural size of a JSON value, used as fuel bound for the
recursions through nested containers. -/
def jsize : JVal → Nat
  | .null => 1
  | .bool _ => 1
  | .num _ => 1
  | .str s => s.length + 2
  | .arr l => 1 + jsizeList l
  | .obj l => 1 + jsizeFields l

def jsizeList : List JVal → Nat
  | [] => 1
  | v :: t => 1 + jsize v + jsizeList t

def jsizeFields : List (String × JVal) → Nat
  | [] => 1
  | (k, v) :: t => 2 + k.length + jsize v + jsizeFields t

end

/-- The single-quote character used by Python `repr` of strings. -/
def squote : String := String.singleton (Char.ofNat 39)

/-- Fuel-indexed Python `repr`, total because the fuel bounds the
nesting depth (`jsize` of the value is always enough fuel). -/
def reprN : Nat → JVal → String
  | 0, _ => ""
  | _ + 1, .null => "None"
  | _ + 1, .bool true => "True"
  | _ + 1, .bool false => "False"
  | _ + 1, .num n => toString n
  | _ + 1, .str s => squote ++ s ++ squote
  | f + 1, .arr l => "[" ++ String.intercalate ", " (l.map (reprN f)) ++ "]"
  | f + 1, .obj l =>
    "\x7b" ++ String.intercalate ", "
        (l.map (fun p => squote ++ p.1 ++ squote ++ ": " ++ reprN f p.2)) ++ "\x7d"

/-- Python `str()` of a value. -/
def pyStrOf (v : JVal) : String :=
  match v with
  | .str s => s
  | v => reprN (jsize v) v

/-- Python `str.strip()`: drop whitespace from both ends. -/
def pyStrip (s : String) : String :=
  String.mk
    (((s.data.dropWhile Char.isWhitespace).reverse.dropWhile
        Char.isWhitespace).reverse)

/-- Python `sep.join(xs)`: every joined element must be a string, otherwise a
`TypeError` is raised. -/
def pyJoin (sep : String) (l : List JVal) : Except String String :=
  (l.mapM (fun v => match v with
      | JVal.str s => Except.ok s
      | _ => Except.error "TypeError: join expects str")).map
    (String.intercalate sep)

/-- Embeds `_plain_from_rich_or_title` (src/app.py:25-30): concatenate the
`plain_text` runs of a `rich_text` or `title` representation, trimmed. -/
def plain_from_rich_or_title (prop : JVal) : Except String String := do
  if ← pyContains "rich_text" prop then
    let lst ← pyGetD prop "rich_text" (.arr [])
    let items ← pyIter lst
    let pieces ← items.mapM (fun r => pyGetD r "plain_text" (.str ""))
    let s ← pyJoin "" pieces
    pure (pyStrip s)
  else if ← pyContains "title" prop then
    let lst ← pyGetD prop "title" (.arr [])
    let items ← pyIter lst
    let pieces ← items.mapM (fun r => pyGetD r "plain_text" (.str ""))
    let s ← pyJoin "" pieces
    pure (pyStrip s)
  else
    pure ""

/-- Embeds `_plain_from_select` (src/app.py:32-34): `sel["name"] if sel else ""`. -/
def plain_from_select (prop : JVal) : Except String JVal := do
  let sel := (← pyGetOpt prop "select").getD .null
  if sel.truthy then pyIndex sel "name" else pure (.str "")

/-- The per-option work of the generator expression in
`_plain_from_multi_select` (src/app.py:38): the filter condition
`opt.get("name")` (as its truthiness) and the element
`opt.get("name", "")`. -/
def msItem (opt : JVal) : Except String (Bool × JVal) := do
  let cond := (← pyGetOpt opt "name").getD .null
  let elt ← pyGetD opt "name" (.str "")
  pure (cond.truthy, elt)

/-- Embeds `_plain_from_multi_select` (src/app.py:36-38): join with ", " the
`name` of each option whose `name` is truthy. -/
def plain_from_multi_select (prop : JVal) : Except String String := do
  let arr ← pyGetD prop "multi_select" (.arr [])
  let opts ← pyIter arr
  let vals ← opts.mapM msItem
  pyJoin ", " ((vals.filter (·.1)).map (·.2))

/-- The per-person value of `_plain_from_people` (src/app.py:45):
`u.get("name") or (u.get("person") or {}).get("email", "")`. -/
def peopleItem (u : JVal) : Except String JVal := do
  let nm := (← pyGetOpt u "name").getD .null
  if nm.truthy then pure nm
  else
    let p0 := (← pyGetOpt u "person").getD .null
    let p := if p0.truthy then p0 else .obj []
    pyGetD p "email" (.str "")

/-- Embeds `_plain_from_people` (src/app.py:40-46): for each person,
the display name with email fallback, then join the truthy entries
with ", ". -/
def plain_from_people (prop : JVal) : Except String String := do
  let arr ← pyGetD prop "people" (.arr [])
  let us ← pyIter arr
  let names ← us.mapM peopleItem
  pyJoin ", " (names.filter JVal.truthy)

/-- The type dispatch of `_read_text_flex` (src/app.py:64-75), with the
call into `_plain_from_rollup` abstracted as `rollupImpl` so that the
mutual recursion can be tied through the fuel-indexed `rollupN`. -/
def flexWith (rollupImpl : JVal → Except String JVal) (prop : JVal) :
    Except String JVal := do
  if ← pyContains "select" prop then
    plain_from_select prop
  else if ← pyContains "multi_select" prop then
    (plain_from_multi_select prop).map .str
  else if ← pyContains "people" prop then
    (plain_from_people prop).map .str
  else if ← pyContains "rollup" prop then
    rollupImpl prop
  else
    (plain_from_rich_or_title prop).map .str

/-- The body of `_plain_from_rollup` (src/app.py:48-62), with the
recursive `_read_text_flex` call on each rollup-array item abstracted
as `flexItem`. -/
def rollupAux (flexItem : JVal → Except String JVal) (prop : JVal) :
    Except String JVal := do
  let r ← pyGetD prop "rollup" (.obj [])
  let t := (← pyGetOpt r "type").getD .null
  match t with
  | .str "array" =>
    let aval ← pyGetD r "array" (.arr [])
    let items ← pyIter aval
    let vals ← items.mapM flexItem
    (pyJoin ", " (vals.filter JVal.truthy)).map .str
  | .str "number" =>
    let n ← pyGetD r "number" (.str "")
    pure (.str (pyStrOf n))
  | .str "date" =>
    let d0 := (← pyGetOpt r "date").getD .null
    let d := if d0.truthy then d0 else .obj []
    let s := (← pyGetOpt d "start").getD .null
    pure (if s.truthy then s else .str "")
  | _ => pure (.str "")

/-- Fuel-indexed `_plain_from_rollup`; the fuel is consumed once per
nested rollup-array level, and `jsize` of the argument always suffices
(see `rollupN_stable`). -/
def rollupN : Nat → JVal → Except String JVal
  | 0, _ => .error "fuel exhausted"
  | f + 1, prop => rollupAux (fun item => flexWith (rollupN f) item) prop

/-- Embeds `_read_text_flex` (src/app.py:64-75). -/
def read_text_flex (prop : JVal) : Except String JVal :=
  flexWith (rollupN (jsize prop)) prop

/-- Embeds `_plain_from_rollup` (src/app.py:48-62). -/
def plain_from_rollup (prop : JVal) : Except String JVal :=
  rollupN (jsize prop) prop

/-- The minimal validation of `_read_polygon_geometry` (src/app.py:91):
`isinstance(geom, dict) and "type" in geom and "coordinates" in geom`. -/
def isGeometryDict : JVal → Bool
  | .obj l => (l.any (fun p => p.1 == "type")) && (l.any (fun p => p.1 == "coordinates"))
  | _ => false

/-- Embeds `_read_polygon_geometry` (src/app.py:78-93); `jl` abstracts
`json.loads`: `none` models a raised `JSONDecodeError`. -/
def read_polygon_geometry (jl : String → Option JVal) (prop : JVal) :
    Except String JVal := do
  let raw ← plain_from_rich_or_title prop
  if raw == "" then
    .error "ValueError: Polygon field is empty"
  else
    match jl raw with
    | none => .error "ValueError: Polygon JSON parse error"
    | some geom =>
      if isGeometryDict geom then
        .ok geom
      else
        .error "ValueError: Polygon must be a GeoJSON geometry object with type/coordinates"

/-- An upstream HTTP response: status code and already-decoded JSON
body (`resp.json()`). -/
structure HttpResponse where
  status : Nat
  body : JVal

/-- Observable side effects of the fetch loop: the POST requests it
issues (with their JSON payload) and the sleeps, in seconds. -/
inductive FetchEvent where
  | request (payload : JVal)
  | sleep (seconds : ℚ)

/-- Outcome of `fetch_all_pages`: the accumulated records on success, a
`requests.HTTPError` from `raise_for_status` on a non-429 error
status, some other Python exception, or — `stalled` — the loop still
running when the fuel runs out (the source loop has no bound, so a
persistently rate-limited upstream never terminates). -/
inductive FetchResult where
  | ok (pages : List JVal)
  | httpError (status : Nat)
  | pyError (msg : String)
  | stalled

/-- Python dict assignment `d[k] = w`: update the existing slot in
place or append the new key at the end. -/
def pySetKey (v : JVal) (k : String) (w : JVal) : JVal :=
  match v with
  | .obj l =>
    if l.any (fun p => p.1 == k) then
      .obj (l.map (fun p => if p.1 == k then (p.1, w) else p))
    else
      .obj (l ++ [(k, w)])
  | v => v

/-- The `while True` loop of `fetch_all_pages` (src/app.py:96-113).
`upstream i` is the response to the `i`-th HTTP request issued;
`fuel` bounds the number of loop iterations the model executes;
`payload` is the JSON request body; `pages` the accumulated records;
`trace` the reversed event trace so far. -/
def fetch_loop (upstream : Nat → HttpResponse) :
    Nat → Nat → JVal → List JVal → List FetchEvent →
    FetchResult × List FetchEvent
  | 0, _, _, _, trace => (.stalled, trace.reverse)
  | fuel + 1, i, payload, pages, trace =>
    let resp := upstream i
    let trace1 := FetchEvent.request payload :: trace
    if resp.status == 429 then
      fetch_loop upstream fuel (i + 1) payload pages
        (FetchEvent.sleep 1 :: trace1)
    else if 400 ≤ resp.status ∧ resp.status < 600 then
      (.httpError resp.status, trace1.reverse)
    else
      match pyGetD resp.body "results" (.arr []) with
      | .error e => (.pyError e, trace1.reverse)
      | .ok results =>
        match pyIter results with
        | .error e => (.pyError e, trace1.reverse)
        | .ok items =>
          match pyGetOpt resp.body "has_more" with
          | .error e => (.pyError e, trace1.reverse)
          | .ok hm =>
            if (hm.getD .null).truthy then
              match pyIndex resp.body "next_cursor" with
              | .error e => (.pyError e, trace1.reverse)
              | .ok cur =>
                fetch_loop upstream fuel (i + 1)
                  (pySetKey payload "start_cursor" cur)
                  (pages ++ items)
                  (FetchEvent.sleep (35/100) :: trace1)
            else
              (.ok (pages ++ items), trace1.reverse)

/-- Embeds `fetch_all_pages` (src/app.py:96-113), with the initial payload
`{"page_size": 100}`. -/
def fetch_all_pages (upstream : Nat → HttpResponse) (fuel : Nat) :
    FetchResult × List FetchEvent :=
  fetch_loop upstream fuel 0 (.obj [("page_size", .num 100)]) [] []

/-- The three configurable property names (env overrides in
src/app.py:13-15). -/
structure Config where
  networkName : String
  polygon : String
  leaders : String

/-- The default property names. -/
def defaultConfig : Config :=
  { networkName := "Network Name", polygon := "Polygon",
    leaders := "Network Leaders Names" }

/-- The body of the per-record `try` block of `build_geojson`
(src/app.py:120-136), acting on the value of the record key `properties`. -/
def buildFeature (jl : String → Option JVal) (cfg : Config) (props : JVal) :
    Except String JVal := do
  let hasPoly ← pyContains cfg.polygon props
  if !hasPoly then
    .error "KeyError: missing polygon property"
  else
    let polyProp ← pyIndex props cfg.polygon
    let geom ← read_polygon_geometry jl polyProp
    let hasNet ← pyContains cfg.networkName props
    let network ← if hasNet then do
        read_text_flex (← pyGetD props cfg.networkName (.obj []))
      else pure (JVal.str "")
    let hasLead ← pyContains cfg.leaders props
    let leaders ← if hasLead then do
        read_text_flex (← pyGetD props cfg.leaders (.obj []))
      else pure (JVal.str "")
    pure (.obj [("type", .str "Feature"), ("geometry", geom),
                ("properties",
                  .obj [("Network", network), ("Leaders", leaders)])])

/-- The diagnostic message printed when a record is skipped
(src/app.py:138). -/
def skipMessage (p : JVal) (err : String) : Except String String := do
  let idv ← pyGetD p "id" (.str "?")
  pure ("⚠️ Skipping page " ++ pyStrOf idv ++ ": " ++ err)

/-- The `for` loop of `build_geojson` (src/app.py:117-139), returning
the features, in order, together with the diagnostic log. The
`properties` lookup (line 119) sits outside the `try`, so its failure
aborts the whole build; every failure inside the `try` only skips the
record and logs a message. -/
def build_loop (jl : String → Option JVal) (cfg : Config) :
    List JVal → Except String (List JVal × List String)
  | [] => .ok ([], [])
  | p :: rest => do
    let props ← pyGetD p "properties" (.obj [])
    match buildFeature jl cfg props with
    | .ok f =>
      let x ← build_loop jl cfg rest
      .ok (f :: x.1, x.2)
    | .error e =>
      let msg ← skipMessage p e
      let x ← build_loop jl cfg rest
      .ok (x.1, msg :: x.2)

/-- Embeds `build_geojson` (src/app.py:116-141). -/
def build_geojson (jl : String → Option JVal) (cfg : Config)
    (pages : List JVal) : Except String JVal :=
  (build_loop jl cfg pages).map fun x =>
    .obj [("type", .str "FeatureCollection"), ("features", .arr x.1)]

/-- The feature (if any) contributed by one record: `none` both when
the record is skipped and when the `properties` lookup itself raises
(in the latter case `build_geojson` raises and produces nothing). -/
def featureOf (jl : String → Option JVal) (cfg : Config) (p : JVal) :
    Option JVal :=
  match pyGetD p "properties" (.obj []) with
  | .error _ => none
  | .ok props => (buildFeature jl cfg props).toOption


/-- The diagnostic log entry (if any) produced for one record: `none`
when the record yields a feature, the printed skip message when the
try-block fails, `none` also when the `properties` lookup itself
raises (then `build_geojson` aborts and prints nothing for it). -/
def logOf (jl : String → Option JVal) (cfg : Config) (p : JVal) :
    Option String :=
  match pyGetD p "properties" (.obj []) with
  | .error _ => none
  | .ok props =>
    match buildFeature jl cfg props with
    | .ok _ => none
    | .error e => (skipMessage p e).toOption

/-- Statement-side predicate: the record is a dict whose polygon
property text extracts and parses to a mapping containing both `type`
and `coordinates` (the success condition named by the specification). -/
def polygonParses (jl : String → Option JVal) (cfg : Config) (p : JVal) :
    Prop :=
  ∃ pl props v raw g,
    p = JVal.obj pl ∧
    ((pl.lookup "properties").getD (.obj [])) = JVal.obj props ∧
    props.lookup cfg.polygon = some v ∧
    plain_from_rich_or_title v = .ok raw ∧
    jl raw = some g ∧ isGeometryDict g = true

/-- Statement-side predicate: the record is shaped like a Record of the
data model — a dict whose `properties` value is a dict, and whose
network-name and leaders properties (when present) are values on which
the type-dispatch text extraction does not raise. -/
def recordWellFormed (cfg : Config) (p : JVal) : Prop :=
  ∃ pl props,
    p = JVal.obj pl ∧
    ((pl.lookup "properties").getD (.obj [])) = JVal.obj props ∧
    (∀ v, props.lookup cfg.networkName = some v → ∃ r, read_text_flex v = .ok r) ∧
    (∀ v, props.lookup cfg.leaders = some v → ∃ r, read_text_flex v = .ok r)

/-- Recognizer for sleep events in a fetch trace. -/
def isSleepEvent : FetchEvent → Bool
  | .sleep _ => true
  | _ => false



/-! ## Concrete test fixtures used by witnesses and counterexamples -/

/-- A rich-text property carrying one plain-text run. -/
def richText (s : String) : JVal :=
  .obj [("rich_text", .arr [.obj [("plain_text", .str s)]])]

/-- A concrete parsed polygon geometry. -/
def geoFix : JVal :=
  .obj [("type", .str "Polygon"),
        ("coordinates", .arr [.arr [.arr [.num 0, .num 0], .arr [.num 1, .num 0],
          .arr [.num 1, .num 1], .arr [.num 0, .num 0]]])]

/-- A concrete stand-in for `json.loads`: parses the fixture texts only,
and (like the real parser) fails on the empty string. -/
def jlFix : String → Option JVal := fun s =>
  if s = "GEO" then some geoFix
  else if s = "NUM" then some (.num 5)
  else none

/-- A record with a valid polygon, a select network name and a
multi-select leaders list. -/
def recValid : JVal :=
  .obj [("id", .str "p1"), ("properties", .obj [
    ("Polygon", richText "GEO"),
    ("Network Name", .obj [("select", .obj [("name", .str "North")])]),
    ("Network Leaders Names", .obj [("multi_select",
      .arr [.obj [("name", .str "Alice")], .obj [("name", .str "Bob")]])])])]

/-- A record with no polygon property at all. -/
def recNoPoly : JVal :=
  .obj [("id", .str "p2"), ("properties", .obj [])]

/-- A record whose polygon text is empty. -/
def recEmptyPoly : JVal :=
  .obj [("id", .str "p3"), ("properties", .obj [("Polygon", richText "")])]

/-- A record whose polygon text does not parse as JSON (under `jlFix`). -/
def recBadJson : JVal :=
  .obj [("id", .str "p4"), ("properties", .obj [("Polygon", richText "oops")])]

/-- A record whose polygon text parses to a non-mapping value. -/
def recNonGeom : JVal :=
  .obj [("id", .str "p5"), ("properties", .obj [("Polygon", richText "NUM")])]

/-- First upstream page: five results, more to come, with a cursor. -/
def pageA : HttpResponse :=
  ⟨200, .obj [("results", .arr [.str "r1", .str "r2", .str "r3", .str "r4", .str "r5"]),
              ("has_more", .bool true), ("next_cursor", .str "cur")]⟩

/-- Second upstream page: three results, no more pages. -/
def pageB : HttpResponse :=
  ⟨200, .obj [("results", .arr [.str "s1", .str "s2", .str "s3"]),
              ("has_more", .bool false)]⟩

/-- An upstream serving exactly the two pages above. -/
def upTwoPages : Nat → HttpResponse := fun i => if i = 0 then pageA else pageB

/-- An upstream answering 429 to the first request, then succeeding. -/
def upRateLimited : Nat → HttpResponse :=
  fun i => if i = 0 then ⟨429, .null⟩ else pageB

/-- An upstream serving one good page and then a 500 error. -/
def upFailing : Nat → HttpResponse :=
  fun i => if i = 0 then pageA else ⟨500, .null⟩

/-- A rollup of type array holding rich-text items "X", "" and "Y" —
the middle item extracts to the empty string. -/
def rollCex : JVal :=
  .obj [("rollup", .obj [("type", .str "array"),
    ("array", .arr [richText "X", richText "", richText "Y"])])]

/-- A rollup of type array holding rich-text items "X" and "Y". -/
def rollXY : JVal :=
  .obj [("rollup", .obj [("type", .str "array"),
    ("array", .arr [richText "X", richText "Y"])])]

/-- A select property with option label "Coastal". -/
def selCoastal : JVal := .obj [("select", .obj [("name", .str "Coastal")])]

/-- A multi-select with labels "A" and "B". -/
def msAB : JVal :=
  .obj [("multi_select", .arr [.obj [("name", .str "A")], .obj [("name", .str "B")]])]

/-- An empty multi-select. -/
def msEmpty : JVal := .obj [("multi_select", .arr [])]

/-- A multi-select with labels "A" and "" — the second label is empty. -/
def msCex : JVal :=
  .obj [("multi_select", .arr [.obj [("name", .str "A")], .obj [("name", .str "")]])]

/-- A person list: one person named "A" and one with neither display
name nor email. -/
def pplCex : JVal :=
  .obj [("people", .arr [.obj [("name", .str "A")], .obj []])]

/-- A person list: a named person and one that falls back to an email
address. -/
def pplFix : JVal :=
  .obj [("people", .arr [.obj [("name", .str "Alice")],
    .obj [("name", .null), ("person", .obj [("email", .str "bob@example.com")])]])]

/-! ## Helper lemmas: sizes, lookups and the tied-back recursion -/

theorem jsize_pos (v : JVal) : 1 ≤ jsize v := by
  cases v <;> simp [jsize]

theorem jsizeList_pos (l : List JVal) : 1 ≤ jsizeList l := by
  cases l with
  | nil => simp [jsizeList]
  | cons v t => simp only [jsizeList]; omega

theorem jsizeFields_pos (l : List (String × JVal)) : 1 ≤ jsizeFields l := by
  cases l with
  | nil => simp [jsizeFields]
  | cons a t => obtain ⟨k, v⟩ := a; simp only [jsizeFields]; omega

theorem jsizeList_of_mem {v : JVal} {l : List JVal} (h : v ∈ l) :
    2 + jsize v ≤ jsizeList l := by
  induction l with
  | nil => cases h
  | cons a t ih =>
    rcases List.mem_cons.mp h with rfl | h
    · have := jsizeList_pos t
      simp [jsizeList]
      omega
    · have := ih h
      have := jsize_pos a
      simp [jsizeList]
      omega

theorem jsizeFields_of_mem {k : String} {v : JVal} {l : List (String × JVal)}
    (h : (k, v) ∈ l) : 3 + k.length + jsize v ≤ jsizeFields l := by
  induction l with
  | nil => cases h
  | cons a t ih =>
    obtain ⟨k1, v1⟩ := a
    rcases List.mem_cons.mp h with heq | h
    · obtain ⟨rfl, rfl⟩ := Prod.mk.injEq .. ▸ heq
      have := jsizeFields_pos t
      simp [jsizeFields]
      omega
    · have := ih h
      have := jsize_pos v1
      simp [jsizeFields]
      omega

theorem lookup_mem {k : String} {v : JVal} {l : List (String × JVal)}
    (h : l.lookup k = some v) : (k, v) ∈ l := by
  induction l with
  | nil => simp [List.lookup] at h
  | cons a t ih =>
    obtain ⟨k1, v1⟩ := a
    rw [List.lookup] at h
    by_cases hk : k == k1
    · simp only [hk, cond_true, Option.some.injEq] at h
      have hk' : k = k1 := by simpa [beq_iff_eq] using hk
      simp [hk', ← h]
    · simp only [hk, cond_false] at h
      exact List.mem_cons_of_mem _ (ih h)

theorem jsize_lookup_lt {k : String} {v : JVal} {l : List (String × JVal)}
    (h : l.lookup k = some v) : jsize v + 3 ≤ jsize (JVal.obj l) := by
  have := jsizeFields_of_mem (lookup_mem h)
  simp [jsize]
  omega

theorem pyIter_jsize {aval : JVal} {items : List JVal} {item : JVal}
    (h : pyIter aval = .ok items) (hm : item ∈ items) :
    jsize item ≤ jsize aval := by
  cases aval with
  | arr l =>
    simp [pyIter] at h
    subst h
    have := jsizeList_of_mem hm
    simp [jsize]
    omega
  | str s =>
    simp [pyIter] at h
    subst h
    obtain ⟨c, hc, rfl⟩ := List.mem_map.mp hm
    have hlen : 1 ≤ s.data.length := by
      have hne : s.data ≠ [] := fun hn => by simp [hn] at hc
      exact List.length_pos.mpr hne
    have e1 : jsize (JVal.str (String.singleton c)) = 3 := rfl
    have e2 : jsize (JVal.str s) = s.data.length + 2 := rfl
    omega
  | obj l =>
    simp [pyIter] at h
    subst h
    obtain ⟨⟨k1, v1⟩, hc, rfl⟩ := List.mem_map.mp hm
    have := jsizeFields_of_mem hc
    have := jsize_pos v1
    simp [jsize]
    omega
  | null => simp [pyIter] at h
  | bool b => simp [pyIter] at h
  | num n => simp [pyIter] at h



theorem mapM_congr_except {α β : Type} {f g : α → Except String β} :
    ∀ {l : List α}, (∀ x ∈ l, f x = g x) → l.mapM f = l.mapM g := by
  intro l
  induction l with
  | nil => intro _; rfl
  | cons a t ih =>
    intro h
    rw [List.mapM_cons, List.mapM_cons, h a (List.mem_cons_self a t),
      ih (fun x hx => h x (List.mem_cons_of_mem a hx))]

theorem flexWith_congr {r1 r2 : JVal → Except String JVal} {prop : JVal}
    (h : r1 prop = r2 prop) : flexWith r1 prop = flexWith r2 prop := by
  simp only [flexWith, bind, Except.bind]
  cases pyContains "select" prop with
  | error e => rfl
  | ok b =>
    cases b
    · cases pyContains "multi_select" prop with
      | error e => rfl
      | ok b2 =>
        cases b2
        · cases pyContains "people" prop with
          | error e => rfl
          | ok b3 =>
            cases b3
            · cases pyContains "rollup" prop with
              | error e => rfl
              | ok b4 =>
                cases b4
                · rfl
                · simpa using h
            · rfl
        · rfl
    · rfl


theorem rollupAux_congr {F G : JVal → Except String JVal} {prop : JVal}
    (h : ∀ item, jsize item < jsize prop → F item = G item) :
    rollupAux F prop = rollupAux G prop := by
  unfold rollupAux
  simp only [bind, Except.bind]
  cases prop with
  | obj pl =>
    simp only [pyGetD]
    cases hr : pl.lookup "rollup" with
    | none => rfl
    | some r =>
      have hr3 := jsize_lookup_lt hr
      cases r with
      | obj rl =>
        simp only [Option.getD_some, pyGetOpt]
        cases ht : rl.lookup "type" with
        | none => rfl
        | some t =>
          simp only [Option.getD_some]
          split
          · rename_i heq
            cases ha : rl.lookup "array" with
            | none => rfl
            | some aval =>
              have ha3 := jsize_lookup_lt ha
              simp only [Option.getD_some]
              cases hit : pyIter aval with
              | error e => rfl
              | ok items =>
                have hmm : items.mapM F = items.mapM G := by
                  refine mapM_congr_except (fun x hx => h x ?_)
                  have := pyIter_jsize hit hx
                  omega
                dsimp only
                rw [hmm]
          · rfl
          · rfl
          · rfl
      | null => rfl
      | bool b => rfl
      | num n => rfl
      | str s => rfl
      | arr l => rfl
  | null => rfl
  | bool b => rfl
  | num n => rfl
  | str s => rfl
  | arr l => rfl


theorem rollupN_stable : ∀ (n : Nat) (v : JVal) (f1 f2 : Nat),
    jsize v ≤ n → jsize v ≤ f1 → jsize v ≤ f2 → rollupN f1 v = rollupN f2 v := by
  intro n
  induction n with
  | zero =>
    intro v f1 f2 h0 _ _
    exact absurd h0 (by have := jsize_pos v; omega)
  | succ n ih =>
    intro v f1 f2 hn h1 h2
    have hv := jsize_pos v
    obtain ⟨a, rfl⟩ : ∃ a, f1 = a + 1 := ⟨f1 - 1, by omega⟩
    obtain ⟨b, rfl⟩ : ∃ b, f2 = b + 1 := ⟨f2 - 1, by omega⟩
    show rollupAux _ v = rollupAux _ v
    refine rollupAux_congr (fun item hlt => ?_)
    exact flexWith_congr (ih item a b (by omega) (by omega) (by omega))

theorem rollupN_eq_plain {f : Nat} {v : JVal} (h : jsize v ≤ f) :
    rollupN f v = plain_from_rollup v :=
  rollupN_stable (jsize v) v f (jsize v) le_rfl h le_rfl

/-- Defining equation of `_read_text_flex`: the dispatch defers to
`_plain_from_rollup` in the rollup branch, exactly as in the source. -/
theorem read_text_flex_eq (prop : JVal) :
    read_text_flex prop = flexWith plain_from_rollup prop :=
  flexWith_congr (rollupN_eq_plain le_rfl)

/-- Defining equation of `_plain_from_rollup`: its body applies
`_read_text_flex` to each rollup-array item, exactly as in the source. -/
theorem plain_from_rollup_eq (prop : JVal) :
    plain_from_rollup prop = rollupAux read_text_flex prop := by
  have hv := jsize_pos prop
  obtain ⟨a, ha⟩ : ∃ a, jsize prop = a + 1 := ⟨jsize prop - 1, by omega⟩
  show rollupN (jsize prop) prop = _
  rw [ha]
  show rollupAux _ prop = rollupAux _ prop
  refine rollupAux_congr (fun item hlt => ?_)
  exact flexWith_congr (rollupN_stable (jsize item) item a (jsize item) le_rfl (by omega) le_rfl)



/-! ## Helper lemmas: polygon reader and collection builder -/

theorem any_keys_eq_lookup_isSome (l : List (String × JVal)) (k : String) :
    (l.any (fun p => p.1 == k)) = (l.lookup k).isSome := by
  induction l with
  | nil => rfl
  | cons a t ih =>
    obtain ⟨k1, v1⟩ := a
    rw [List.lookup, List.any_cons]
    by_cases hk : k = k1
    · subst hk
      simp only [beq_self_eq_true, cond_true, Bool.true_or, Option.isSome_some]
    · have h1 : (k == k1) = false := beq_eq_false_iff_ne.mpr hk
      have h2 : (k1 == k) = false := beq_eq_false_iff_ne.mpr (Ne.symm hk)
      rw [h1, h2]
      simp only [cond_false, Bool.false_or]
      exact ih

theorem read_polygon_geometry_ok_iff (jl : String → Option JVal) (prop : JVal)
    (g : JVal) :
    read_polygon_geometry jl prop = .ok g ↔
      ∃ raw, plain_from_rich_or_title prop = .ok raw ∧ raw ≠ "" ∧
        jl raw = some g ∧ isGeometryDict g = true := by
  unfold read_polygon_geometry
  cases hp : plain_from_rich_or_title prop with
  | error e =>
    simp only [bind, Except.bind]
    constructor
    · intro h; cases h
    · rintro ⟨raw2, hr2, _⟩; cases hr2
  | ok raw =>
    simp only [bind, Except.bind]
    by_cases hraw : raw = ""
    · subst hraw
      rw [if_pos (by simp)]
      constructor
      · intro h; cases h
      · rintro ⟨raw2, hr2, hne, _⟩
        injection hr2 with hr2
        exact absurd hr2.symm hne
    · rw [if_neg (by simpa using hraw)]
      cases hjl : jl raw with
      | none =>
        dsimp only
        constructor
        · intro h; cases h
        · rintro ⟨raw2, hr2, _, hjl2, _⟩
          injection hr2 with hr2
          subst hr2
          rw [hjl] at hjl2
          cases hjl2
      | some geom =>
        dsimp only
        by_cases hgd : isGeometryDict geom = true
        · rw [if_pos hgd]
          constructor
          · intro h
            injection h with h
            subst h
            exact ⟨raw, rfl, hraw, hjl, hgd⟩
          · rintro ⟨raw2, hr2, _, hjl2, hgd2⟩
            injection hr2 with hr2
            subst hr2
            rw [hjl] at hjl2
            injection hjl2 with hjl2
            rw [hjl2]
        · rw [if_neg hgd]
          constructor
          · intro h; cases h
          · rintro ⟨raw2, hr2, _, hjl2, hgd2⟩
            injection hr2 with hr2
            subst hr2
            rw [hjl] at hjl2
            injection hjl2 with hjl2
            subst hjl2
            exact absurd hgd2 hgd


theorem except_error_of_never_ok {α : Type} {x : Except String α}
    (h : ∀ a, x ≠ .ok a) : ∃ e, x = .error e := by
  rcases x with e | a
  · exact ⟨e, rfl⟩
  · exact (h a rfl).elim

theorem buildFeature_missing {jl : String → Option JVal} {cfg : Config}
    {prs : List (String × JVal)} (h : prs.lookup cfg.polygon = none) :
    buildFeature jl cfg (.obj prs) = .error "KeyError: missing polygon property" := by
  unfold buildFeature
  simp only [bind, Except.bind, pyContains, any_keys_eq_lookup_isSome, h,
    Option.isSome_none, Bool.not_false, if_true]

theorem buildFeature_polyfail {jl : String → Option JVal} {cfg : Config}
    {prs : List (String × JVal)} {v : JVal} {e : String}
    (hv : prs.lookup cfg.polygon = some v)
    (he : read_polygon_geometry jl v = .error e) :
    buildFeature jl cfg (.obj prs) = .error e := by
  unfold buildFeature
  simp only [bind, Except.bind, pyContains, any_keys_eq_lookup_isSome, hv,
    Option.isSome_some, Bool.not_true, Bool.false_eq_true, if_false,
    pyIndex, he]

theorem buildFeature_ok_iff {jl : String → Option JVal} {cfg : Config}
    {prs : List (String × JVal)}
    (hnet : ∀ v, prs.lookup cfg.networkName = some v → ∃ r, read_text_flex v = .ok r)
    (hlead : ∀ v, prs.lookup cfg.leaders = some v → ∃ r, read_text_flex v = .ok r) :
    (∃ f, buildFeature jl cfg (.obj prs) = .ok f) ↔
      (∃ v g, prs.lookup cfg.polygon = some v ∧
        read_polygon_geometry jl v = .ok g) := by
  cases hv : prs.lookup cfg.polygon with
  | none =>
    rw [iff_iff_implies_and_implies]
    constructor
    · rintro ⟨f, hf⟩
      rw [buildFeature_missing hv] at hf
      cases hf
    · rintro ⟨v, g, hv2, _⟩
      cases hv2
  | some v =>
    cases hg : read_polygon_geometry jl v with
    | error e =>
      rw [iff_iff_implies_and_implies]
      constructor
      · rintro ⟨f, hf⟩
        rw [buildFeature_polyfail hv hg] at hf
        cases hf
      · rintro ⟨v2, g, hv2, hg2⟩
        injection hv2 with hv2
        subst hv2
        rw [hg] at hg2
        cases hg2
    | ok g =>
      rw [iff_iff_implies_and_implies]
      constructor
      · intro _
        exact ⟨v, g, rfl, hg⟩
      · intro _
        unfold buildFeature
        simp only [bind, Except.bind, pyContains, any_keys_eq_lookup_isSome, hv,
          Option.isSome_some, Bool.not_true, Bool.false_eq_true, if_false,
          pyIndex, hg]
        cases hnetk : prs.lookup cfg.networkName with
        | none =>
          simp only [hnetk, Option.isSome_none, Bool.false_eq_true, if_false]
          cases hleadk : prs.lookup cfg.leaders with
          | none =>
            simp only [hleadk, Option.isSome_none, Bool.false_eq_true, if_false,
              pure, Except.pure]
            exact ⟨_, rfl⟩
          | some w =>
            obtain ⟨r, hr⟩ := hlead w hleadk
            simp only [hleadk, Option.isSome_some, if_true, pyGetD,
              Option.getD_some, hr, pure, Except.pure]
            exact ⟨_, rfl⟩
        | some w =>
          obtain ⟨r, hr⟩ := hnet w hnetk
          simp only [hnetk, Option.isSome_some, if_true, pyGetD,
            Option.getD_some, hr, pure, Except.pure]
          cases hleadk : prs.lookup cfg.leaders with
          | none =>
            simp only [hleadk, Option.isSome_none, Bool.false_eq_true, if_false,
              pure, Except.pure]
            exact ⟨_, rfl⟩
          | some w2 =>
            obtain ⟨r2, hr2⟩ := hlead w2 hleadk
            simp only [hleadk, Option.isSome_some, if_true, pyGetD,
              Option.getD_some, hr2, pure, Except.pure]
            exact ⟨_, rfl⟩


theorem skipMessage_obj (pl : List (String × JVal)) (e : String) :
    skipMessage (.obj pl) e =
      .ok ("⚠️ Skipping page " ++ pyStrOf ((pl.lookup "id").getD (.str "?")) ++ ": " ++ e) := rfl

theorem featureOf_obj_ok {jl : String → Option JVal} {cfg : Config}
    {pl : List (String × JVal)} {f : JVal}
    (hb : buildFeature jl cfg ((pl.lookup "properties").getD (.obj [])) = .ok f) :
    featureOf jl cfg (.obj pl) = some f := by
  unfold featureOf
  simp only [pyGetD, hb, Except.toOption]

theorem featureOf_obj_err {jl : String → Option JVal} {cfg : Config}
    {pl : List (String × JVal)} {e : String}
    (hb : buildFeature jl cfg ((pl.lookup "properties").getD (.obj [])) = .error e) :
    featureOf jl cfg (.obj pl) = none := by
  unfold featureOf
  simp only [pyGetD, hb, Except.toOption]

theorem logOf_obj_ok {jl : String → Option JVal} {cfg : Config}
    {pl : List (String × JVal)} {f : JVal}
    (hb : buildFeature jl cfg ((pl.lookup "properties").getD (.obj [])) = .ok f) :
    logOf jl cfg (.obj pl) = none := by
  unfold logOf
  simp only [pyGetD, hb]

theorem logOf_obj_err {jl : String → Option JVal} {cfg : Config}
    {pl : List (String × JVal)} {e : String}
    (hb : buildFeature jl cfg ((pl.lookup "properties").getD (.obj [])) = .error e) :
    logOf jl cfg (.obj pl) =
      some ("⚠️ Skipping page " ++ pyStrOf ((pl.lookup "id").getD (.str "?")) ++ ": " ++ e) := by
  unfold logOf
  simp only [pyGetD, hb, skipMessage_obj, Except.toOption]

theorem build_loop_spec (jl : String → Option JVal) (cfg : Config) :
    ∀ (pages : List JVal), (∀ p ∈ pages, ∃ pl, p = JVal.obj pl) →
      build_loop jl cfg pages =
        .ok (pages.filterMap (featureOf jl cfg), pages.filterMap (logOf jl cfg)) := by
  intro pages
  induction pages with
  | nil => intro _; rfl
  | cons p rest ih =>
    intro h
    obtain ⟨pl, rfl⟩ := h _ (List.mem_cons_self p rest)
    have hrest := ih (fun q hq => h q (List.mem_cons_of_mem _ hq))
    rw [build_loop]
    simp only [bind, Except.bind, pyGetD]
    cases hb : buildFeature jl cfg ((pl.lookup "properties").getD (.obj [])) with
    | ok f =>
      rw [hrest]
      simp only [List.filterMap_cons, featureOf_obj_ok hb, logOf_obj_ok hb]
    | error e =>
      dsimp only
      rw [skipMessage_obj]
      simp only [bind, Except.bind]
      rw [hrest]
      simp only [List.filterMap_cons, featureOf_obj_err hb, logOf_obj_err hb]

theorem build_count (jl : String → Option JVal) (cfg : Config) :
    ∀ (pages : List JVal), (∀ p ∈ pages, ∃ pl, p = JVal.obj pl) →
      (pages.filterMap (featureOf jl cfg)).length +
        (pages.filterMap (logOf jl cfg)).length = pages.length := by
  intro pages
  induction pages with
  | nil => intro _; rfl
  | cons p rest ih =>
    intro h
    obtain ⟨pl, rfl⟩ := h _ (List.mem_cons_self p rest)
    have hrest := ih (fun q hq => h q (List.mem_cons_of_mem _ hq))
    cases hb : buildFeature jl cfg ((pl.lookup "properties").getD (.obj [])) with
    | ok f =>
      simp only [List.filterMap_cons, featureOf_obj_ok hb, logOf_obj_ok hb,
        List.length_cons, List.length]
      omega
    | error e =>
      simp only [List.filterMap_cons, featureOf_obj_err hb, logOf_obj_err hb,
        List.length_cons, List.length]
      omega


/-! ## Helper lemmas: fetch loop steps -/

theorem fetch_step_429 {upstream : Nat → HttpResponse} {fuel i : Nat}
    {payload : JVal} {pages : List JVal} {trace : List FetchEvent}
    (h : (upstream i).status = 429) :
    fetch_loop upstream (fuel + 1) i payload pages trace =
      fetch_loop upstream fuel (i + 1) payload pages
        (FetchEvent.sleep 1 :: FetchEvent.request payload :: trace) := by
  rw [fetch_loop]
  rw [if_pos (show ((upstream i).status == 429) = true by simp [h])]

theorem fetch_step_httpError {upstream : Nat → HttpResponse} {fuel i : Nat}
    {payload : JVal} {pages : List JVal} {trace : List FetchEvent}
    (h429 : (upstream i).status ≠ 429)
    (herr : 400 ≤ (upstream i).status ∧ (upstream i).status < 600) :
    fetch_loop upstream (fuel + 1) i payload pages trace =
      (.httpError (upstream i).status,
        (FetchEvent.request payload :: trace).reverse) := by
  rw [fetch_loop]
  rw [if_neg (by simpa using h429), if_pos herr]

theorem fetch_step_more {upstream : Nat → HttpResponse} {fuel i : Nat}
    {payload : JVal} {pages : List JVal} {trace : List FetchEvent}
    {bl : List (String × JVal)} {rs : List JVal} {hm cur : JVal}
    (h429 : (upstream i).status ≠ 429)
    (hok : ¬(400 ≤ (upstream i).status ∧ (upstream i).status < 600))
    (hbody : (upstream i).body = .obj bl)
    (hres : (bl.lookup "results").getD (.arr []) = .arr rs)
    (hhm : bl.lookup "has_more" = some hm)
    (htr : hm.truthy = true)
    (hcur : bl.lookup "next_cursor" = some cur) :
    fetch_loop upstream (fuel + 1) i payload pages trace =
      fetch_loop upstream fuel (i + 1) (pySetKey payload "start_cursor" cur)
        (pages ++ rs)
        (FetchEvent.sleep (35/100) :: FetchEvent.request payload :: trace) := by
  rw [fetch_loop]
  rw [if_neg (by simpa using h429), if_neg hok]
  simp only [hbody, pyGetD, hres, pyIter, pyGetOpt, hhm, Option.getD_some,
    htr, if_true, pyIndex, hcur]

theorem fetch_step_done {upstream : Nat → HttpResponse} {fuel i : Nat}
    {payload : JVal} {pages : List JVal} {trace : List FetchEvent}
    {bl : List (String × JVal)} {rs : List JVal}
    (h429 : (upstream i).status ≠ 429)
    (hok : ¬(400 ≤ (upstream i).status ∧ (upstream i).status < 600))
    (hbody : (upstream i).body = .obj bl)
    (hres : (bl.lookup "results").getD (.arr []) = .arr rs)
    (hhm : ((bl.lookup "has_more").getD .null).truthy = false) :
    fetch_loop upstream (fuel + 1) i payload pages trace =
      (.ok (pages ++ rs), (FetchEvent.request payload :: trace).reverse) := by
  rw [fetch_loop]
  rw [if_neg (by simpa using h429), if_neg hok]
  simp only [hbody, pyGetD, hres, pyIter, pyGetOpt, hhm, Bool.false_eq_true,
    if_false]

theorem fetch_always_429_stalls {upstream : Nat → HttpResponse}
    (h : ∀ j, (upstream j).status = 429) :
    ∀ (fuel i : Nat) (payload : JVal) (pages : List JVal)
      (trace : List FetchEvent),
      (fetch_loop upstream fuel i payload pages trace).1 = .stalled := by
  intro fuel
  induction fuel with
  | zero => intro i payload pages trace; rfl
  | succ fuel ih =>
    intro i payload pages trace
    rw [fetch_step_429 (h i)]
    exact ih _ _ _ _


/-! ## Helper lemmas: text extraction -/

theorem mapM_strs :
    ∀ (l : List String),
      (l.map JVal.str).mapM (fun v => match v with
        | JVal.str s => Except.ok s
        | _ => Except.error "TypeError: join expects str") = Except.ok l := by
  intro l
  induction l with
  | nil => rfl
  | cons s t ih =>
    simp only [List.map_cons, List.mapM_cons, bind, Except.bind, pure, Except.pure]
    rw [ih]

theorem pyJoin_strs (sep : String) (l : List String) :
    pyJoin sep (l.map JVal.str) = .ok (String.intercalate sep l) := by
  unfold pyJoin
  rw [mapM_strs]
  rfl

theorem filter_truthy_strs :
    ∀ (l : List String),
      (l.map JVal.str).filter JVal.truthy = (l.filter (fun s => s != "")).map JVal.str := by
  intro l
  induction l with
  | nil => rfl
  | cons s t ih =>
    simp only [List.map_cons, List.filter_cons]
    rw [show (JVal.truthy (JVal.str s)) = (s != "") from rfl]
    by_cases hs : s = ""
    · subst hs
      rw [show (("" : String) != "") = false from rfl]
      simpa using ih
    · have hb : (s != "") = true := by simpa using hs
      rw [hb]
      simp only [if_true, List.map_cons]
      rw [ih]

theorem msItem_name {ol : List (String × JVal)} {lbl : String}
    (hname : ol.lookup "name" = some (JVal.str lbl)) :
    msItem (.obj ol) = .ok ((lbl != ""), JVal.str lbl) := by
  unfold msItem
  simp only [bind, Except.bind, pyGetOpt, pyGetD, hname, Option.getD_some,
    pure, Except.pure]
  rfl

theorem msItems_mapM {opts : List JVal} {labels : List String}
    (h : List.Forall₂ (fun opt lbl => ∃ ol, opt = JVal.obj ol ∧
      ol.lookup "name" = some (JVal.str lbl)) opts labels) :
    opts.mapM msItem =
      Except.ok (labels.map (fun lbl => ((lbl != ""), JVal.str lbl))) := by
  induction h with
  | nil => rfl
  | cons ha ht ih =>
    obtain ⟨ol, rfl, hname⟩ := ha
    rw [List.mapM_cons, msItem_name hname]
    simp only [bind, Except.bind]
    rw [ih]
    rfl

theorem pairs_filter_map :
    ∀ (labels : List String),
      (((labels.map (fun lbl => ((lbl != ""), JVal.str lbl))).filter
          (fun x => x.1)).map (fun x => x.2)) =
        (labels.filter (fun s => s != "")).map JVal.str := by
  intro labels
  induction labels with
  | nil => rfl
  | cons s t ih =>
    simp only [List.map_cons, List.filter_cons]
    by_cases hs : s = ""
    · subst hs
      simpa using ih
    · have hb : (s != "") = true := by simpa using hs
      rw [hb]
      simp only [if_true, List.map_cons]
      rw [ih]

theorem plain_from_multi_select_spec {pl : List (String × JVal)}
    {opts : List JVal} {labels : List String}
    (hm : pl.lookup "multi_select" = some (.arr opts))
    (h : List.Forall₂ (fun opt lbl => ∃ ol, opt = JVal.obj ol ∧
      ol.lookup "name" = some (JVal.str lbl)) opts labels) :
    plain_from_multi_select (.obj pl) =
      .ok (String.intercalate ", " (labels.filter (fun s => s != ""))) := by
  unfold plain_from_multi_select
  simp only [bind, Except.bind, pyGetD, hm, Option.getD_some, pyIter]
  rw [msItems_mapM h]
  dsimp only
  rw [pairs_filter_map, pyJoin_strs]

theorem peopleItem_spec {ul : List (String × JVal)} {s : String}
    (hcase : (((ul.lookup "name").getD .null) = JVal.str s ∧ s ≠ "") ∨
      (¬((ul.lookup "name").getD .null).truthy = true ∧
        ((∃ plp, ((ul.lookup "person").getD .null) = JVal.obj plp ∧
           ((plp.lookup "email").getD (.str "")) = JVal.str s) ∨
         (¬((ul.lookup "person").getD .null).truthy = true ∧ s = "")))) :
    peopleItem (.obj ul) = .ok (JVal.str s) := by
  unfold peopleItem
  simp only [bind, Except.bind, pyGetOpt]
  rcases hcase with ⟨hnm, hs⟩ | ⟨hfal, hrest⟩
  · rw [hnm]
    rw [if_pos (by simpa [JVal.truthy] using hs)]
    rfl
  · rw [if_neg hfal]
    rcases hrest with ⟨plp, hp, he⟩ | ⟨hpf, hs⟩
    · rw [hp]
      by_cases hpt : (JVal.obj plp).truthy = true
      · rw [if_pos hpt]
        simp only [pyGetD, he]
      · rw [if_neg hpt]
        have hplp : plp = [] := by
          by_contra hne
          exact hpt (by simpa [JVal.truthy, List.isEmpty_iff] using hne)
        subst hplp
        injection he with he2
        subst he2
        rfl
    · rw [if_neg hpf]
      subst hs
      rfl

theorem peopleItems_mapM {us : List JVal} {values : List String}
    (h : List.Forall₂ (fun u s => ∃ ul, u = JVal.obj ul ∧
      ((((ul.lookup "name").getD .null) = JVal.str s ∧ s ≠ "") ∨
       (¬((ul.lookup "name").getD .null).truthy = true ∧
         ((∃ plp, ((ul.lookup "person").getD .null) = JVal.obj plp ∧
            ((plp.lookup "email").getD (.str "")) = JVal.str s) ∨
          (¬((ul.lookup "person").getD .null).truthy = true ∧ s = "")))))
      us values) :
    us.mapM peopleItem = Except.ok (values.map JVal.str) := by
  induction h with
  | nil => rfl
  | cons ha ht ih =>
    obtain ⟨ul, rfl, hcase⟩ := ha
    rw [List.mapM_cons, peopleItem_spec hcase]
    simp only [bind, Except.bind]
    rw [ih]
    rfl

theorem plain_from_people_spec {pl : List (String × JVal)}
    {us : List JVal} {values : List String}
    (hm : pl.lookup "people" = some (.arr us))
    (h : List.Forall₂ (fun u s => ∃ ul, u = JVal.obj ul ∧
      ((((ul.lookup "name").getD .null) = JVal.str s ∧ s ≠ "") ∨
       (¬((ul.lookup "name").getD .null).truthy = true ∧
         ((∃ plp, ((ul.lookup "person").getD .null) = JVal.obj plp ∧
            ((plp.lookup "email").getD (.str "")) = JVal.str s) ∨
          (¬((ul.lookup "person").getD .null).truthy = true ∧ s = "")))))
      us values) :
    plain_from_people (.obj pl) =
      .ok (String.intercalate ", " (values.filter (fun s => s != ""))) := by
  unfold plain_from_people
  simp only [bind, Except.bind, pyGetD, hm, Option.getD_some, pyIter]
  rw [peopleItems_mapM h]
  dsimp only
  rw [filter_truthy_strs, pyJoin_strs]

theorem mapM_flex_strs {items : List JVal} {vals : List String}
    (h : List.Forall₂ (fun item s => read_text_flex item = .ok (.str s)) items vals) :
    items.mapM read_text_flex = Except.ok (vals.map JVal.str) := by
  induction h with
  | nil => rfl
  | cons ha ht ih =>
    rw [List.mapM_cons, ha]
    simp only [bind, Except.bind]
    rw [ih]
    rfl

theorem plain_from_rollup_array {pl rl : List (String × JVal)}
    {items : List JVal} {vals : List String}
    (hr : pl.lookup "rollup" = some (.obj rl))
    (ht : rl.lookup "type" = some (.str "array"))
    (ha : rl.lookup "array" = some (.arr items))
    (h : List.Forall₂ (fun item s => read_text_flex item = .ok (.str s)) items vals) :
    plain_from_rollup (.obj pl) =
      .ok (.str (String.intercalate ", " (vals.filter (fun s => s != "")))) := by
  rw [plain_from_rollup_eq]
  unfold rollupAux
  simp only [bind, Except.bind, pyGetD, hr, Option.getD_some, pyGetOpt, ht]
  try dsimp only
  simp only [ha, Option.getD_some, pyIter]
  rw [mapM_flex_strs h]
  dsimp only
  rw [filter_truthy_strs, pyJoin_strs]
  rfl

theorem plain_from_rollup_number {pl rl : List (String × JVal)}
    (hr : pl.lookup "rollup" = some (.obj rl))
    (ht : rl.lookup "type" = some (.str "number")) :
    plain_from_rollup (.obj pl) =
      .ok (.str (pyStrOf ((rl.lookup "number").getD (.str "")))) := by
  rw [plain_from_rollup_eq]
  unfold rollupAux
  simp only [bind, Except.bind, pyGetD, hr, Option.getD_some, pyGetOpt, ht]
  rfl

theorem plain_from_rollup_date {pl rl dl : List (String × JVal)} {s : String}
    (hr : pl.lookup "rollup" = some (.obj rl))
    (ht : rl.lookup "type" = some (.str "date"))
    (hd : rl.lookup "date" = some (.obj dl))
    (hstart : dl.lookup "start" = some (.str s))
    (hs : s ≠ "") :
    plain_from_rollup (.obj pl) = .ok (.str s) := by
  have hdl : dl ≠ [] := by
    intro hn
    subst hn
    cases hstart
  rw [plain_from_rollup_eq]
  unfold rollupAux
  simp only [bind, Except.bind, pyGetD, hr, Option.getD_some, pyGetOpt, ht]
  try dsimp only
  simp only [hd, Option.getD_some]
  rw [if_pos (by simpa [JVal.truthy, List.isEmpty_iff] using hdl)]
  simp only [pyGetOpt, hstart, Option.getD_some]
  rw [if_pos (by simpa [JVal.truthy] using hs)]
  rfl

theorem plain_from_rollup_other {pl rl : List (String × JVal)} {t : String}
    (hr : pl.lookup "rollup" = some (.obj rl))
    (ht : rl.lookup "type" = some (.str t))
    (h1 : t ≠ "array") (h2 : t ≠ "number") (h3 : t ≠ "date") :
    plain_from_rollup (.obj pl) = .ok (.str "") := by
  rw [plain_from_rollup_eq]
  unfold rollupAux
  simp only [bind, Except.bind, pyGetD, hr, Option.getD_some, pyGetOpt, ht]
  split
  · rename_i heq
    injection heq with heq
    exact absurd heq h1
  · rename_i heq
    injection heq with heq
    exact absurd heq h2
  · rename_i heq
    injection heq with heq
    exact absurd heq h3
  · rfl


/-! ## Claim theorems -/

/-- C3: polygon geometry extraction succeeds exactly when the
title/rich-text plain text is non-empty and parses as JSON to a
mapping containing both `type` and `coordinates`; on success the
emitted geometry is exactly the parsed value, unmodified, with no
deeper validation. -/
theorem claim3_polygon_extraction_characterization :
    ∀ (jl : String → Option JVal) (prop : JVal) (g : JVal),
      read_polygon_geometry jl prop = .ok g ↔
        ∃ raw, plain_from_rich_or_title prop = .ok raw ∧ raw ≠ "" ∧
          jl raw = some g ∧ isGeometryDict g = true :=
  read_polygon_geometry_ok_iff

/-- C3 witness: the characterization applied at a concrete property and
geometry. -/
theorem claim3_witness :
    read_polygon_geometry jlFix (richText "GEO") = .ok geoFix :=
  (claim3_polygon_extraction_characterization jlFix (richText "GEO") geoFix).mpr
    ⟨"GEO", rfl, by decide, rfl, rfl⟩


/-- C1: for every list of well-formed records (dict-shaped, with
extractable describable properties), `build_geojson` produces a
FeatureCollection holding exactly one Feature for each record whose
polygon property text parses to a mapping containing both `type` and
`coordinates`, in the same relative order as the source records
(expressed as a `filterMap`). -/
theorem claim1_one_feature_per_valid_record_in_order :
    ∀ (jl : String → Option JVal) (cfg : Config) (pages : List JVal),
      jl "" = none →
      (∀ p ∈ pages, recordWellFormed cfg p) →
      ∃ features,
        build_geojson jl cfg pages =
          .ok (.obj [("type", .str "FeatureCollection"),
                     ("features", .arr features)]) ∧
        features = pages.filterMap (featureOf jl cfg) ∧
        ∀ p ∈ pages,
          ((featureOf jl cfg p).isSome ↔ polygonParses jl cfg p) := by
  intro jl cfg pages hjl hwf
  have hobj : ∀ p ∈ pages, ∃ pl, p = JVal.obj pl := by
    intro p hp
    obtain ⟨pl, props, hpl, _⟩ := hwf p hp
    exact ⟨pl, hpl⟩
  refine ⟨pages.filterMap (featureOf jl cfg), ?_, rfl, ?_⟩
  · unfold build_geojson
    rw [build_loop_spec jl cfg pages hobj]
    rfl
  · intro p hp
    obtain ⟨pl, props, rfl, hpr, hnet, hlead⟩ := hwf p hp
    have h1 : (featureOf jl cfg (.obj pl)).isSome ↔
        ∃ f, buildFeature jl cfg (.obj props) = .ok f := by
      unfold featureOf
      simp only [pyGetD, hpr]
      cases buildFeature jl cfg (.obj props) with
      | ok f => simp [Except.toOption]
      | error e => simp [Except.toOption]
    have h2 := @buildFeature_ok_iff jl cfg props hnet hlead
    have h3 : (∃ v g, props.lookup cfg.polygon = some v ∧
        read_polygon_geometry jl v = .ok g) ↔ polygonParses jl cfg (.obj pl) := by
      constructor
      · rintro ⟨v, g, hv, hg⟩
        obtain ⟨raw, hraw, hne, hjlr, hgd⟩ :=
          (read_polygon_geometry_ok_iff jl v g).mp hg
        exact ⟨pl, props, v, raw, g, rfl, hpr, hv, hraw, hjlr, hgd⟩
      · rintro ⟨pl2, props2, v, raw, g, heq, hpr2, hv, hraw, hjlr, hgd⟩
        injection heq with heq
        subst heq
        rw [hpr] at hpr2
        injection hpr2 with hpr2
        subst hpr2
        have hne : raw ≠ "" := by
          intro hh
          rw [hh, hjl] at hjlr
          cases hjlr
        exact ⟨v, g, hv,
          (read_polygon_geometry_ok_iff jl v g).mpr ⟨raw, hraw, hne, hjlr, hgd⟩⟩
    exact h1.trans (h2.trans h3)


/-- C1 witness: the theorem applied to a concrete two-record list (one
valid record, one missing the polygon property). -/
theorem claim1_witness :
    ∃ features,
      build_geojson jlFix defaultConfig [recValid, recNoPoly] =
        .ok (.obj [("type", .str "FeatureCollection"),
                   ("features", .arr features)]) ∧
      features = [recValid, recNoPoly].filterMap (featureOf jlFix defaultConfig) ∧
      ∀ p ∈ [recValid, recNoPoly],
        ((featureOf jlFix defaultConfig p).isSome ↔
          polygonParses jlFix defaultConfig p) := by
  refine claim1_one_feature_per_valid_record_in_order jlFix defaultConfig
    [recValid, recNoPoly] rfl ?_
  intro p hp
  rcases List.mem_cons.mp hp with rfl | hp
  · refine ⟨_, _, rfl, rfl, ?_, ?_⟩
    · intro v hv
      injection hv with hv
      subst hv
      exact ⟨_, rfl⟩
    · intro v hv
      injection hv with hv
      subst hv
      exact ⟨_, rfl⟩
  · rcases List.mem_cons.mp hp with rfl | hp
    · refine ⟨_, _, rfl, rfl, ?_, ?_⟩
      · intro v hv
        cases hv
      · intro v hv
        cases hv
    · cases hp


/-- C2: on a list of dict-shaped records `build_geojson` never raises
and returns a well-formed FeatureCollection holding the features of
the surviving records in order; any record whose polygon property is
missing, or whose polygon text is empty, unparseable or not a mapping
with both `type` and `coordinates`, contributes no feature. -/
theorem claim2_invalid_records_skipped_never_raises :
    ∀ (jl : String → Option JVal) (cfg : Config) (pages : List JVal),
      ((∀ p ∈ pages, ∃ pl, p = JVal.obj pl) →
        build_geojson jl cfg pages =
          .ok (.obj [("type", .str "FeatureCollection"),
            ("features", .arr (pages.filterMap (featureOf jl cfg)))])) ∧
      (∀ (p : JVal) (pl props : List (String × JVal)),
        p = JVal.obj pl →
        ((pl.lookup "properties").getD (.obj [])) = JVal.obj props →
        (props.lookup cfg.polygon = none ∨
         (∃ v, props.lookup cfg.polygon = some v ∧
           (plain_from_rich_or_title v = .ok "" ∨
            (∃ raw, plain_from_rich_or_title v = .ok raw ∧ jl raw = none) ∨
            (∃ raw g, plain_from_rich_or_title v = .ok raw ∧ jl raw = some g ∧
              isGeometryDict g = false)))) →
        featureOf jl cfg p = none) := by
  intro jl cfg pages
  constructor
  · intro hobj
    unfold build_geojson
    rw [build_loop_spec jl cfg pages hobj]
    rfl
  · rintro p pl props rfl hpr hbad
    have hnone : ∀ f, buildFeature jl cfg (.obj props) ≠ .ok f := by
      rcases hbad with hmiss | ⟨v, hv, hcase⟩
      · intro f hf
        rw [buildFeature_missing hmiss] at hf
        cases hf
      · have hnever : ∀ g, read_polygon_geometry jl v ≠ .ok g := by
          intro g hg
          obtain ⟨raw, hraw, hne, hjlr, hgd⟩ :=
            (read_polygon_geometry_ok_iff jl v g).mp hg
          rcases hcase with hempty | ⟨raw2, hraw2, hnone2⟩ | ⟨raw2, g2, hraw2, hsome2, hgd2⟩
          · rw [hraw] at hempty
            injection hempty with hempty
            exact hne hempty
          · rw [hraw] at hraw2
            injection hraw2 with hraw2
            subst hraw2
            rw [hjlr] at hnone2
            cases hnone2
          · rw [hraw] at hraw2
            injection hraw2 with hraw2
            subst hraw2
            rw [hjlr] at hsome2
            injection hsome2 with hsome2
            subst hsome2
            rw [hgd] at hgd2
            cases hgd2
        obtain ⟨e, he⟩ := except_error_of_never_ok hnever
        intro f hf
        rw [buildFeature_polyfail hv he] at hf
        cases hf
    obtain ⟨e, he⟩ := except_error_of_never_ok hnone
    exact featureOf_obj_err (hpr ▸ he)

/-- C2 witness: the theorem applied to a concrete list containing a
valid record and records failing in all four described ways, checking
that each bad record is excluded. -/
theorem claim2_witness :
    build_geojson jlFix defaultConfig
        [recValid, recNoPoly, recEmptyPoly, recBadJson, recNonGeom] =
      .ok (.obj [("type", .str "FeatureCollection"),
        ("features", .arr ([recValid, recNoPoly, recEmptyPoly, recBadJson,
          recNonGeom].filterMap (featureOf jlFix defaultConfig)))]) ∧
    featureOf jlFix defaultConfig recNoPoly = none ∧
    featureOf jlFix defaultConfig recEmptyPoly = none ∧
    featureOf jlFix defaultConfig recBadJson = none ∧
    featureOf jlFix defaultConfig recNonGeom = none := by
  have h := claim2_invalid_records_skipped_never_raises jlFix defaultConfig
    [recValid, recNoPoly, recEmptyPoly, recBadJson, recNonGeom]
  refine ⟨h.1 ?_, ?_, ?_, ?_, ?_⟩
  · intro p hp
    simp only [List.mem_cons, List.not_mem_nil, or_false] at hp
    rcases hp with rfl | rfl | rfl | rfl | rfl
    · exact ⟨_, rfl⟩
    · exact ⟨_, rfl⟩
    · exact ⟨_, rfl⟩
    · exact ⟨_, rfl⟩
    · exact ⟨_, rfl⟩
  · exact h.2 recNoPoly _ _ rfl rfl (Or.inl rfl)
  · exact h.2 recEmptyPoly _ _ rfl rfl (Or.inr ⟨_, rfl, Or.inl rfl⟩)
  · exact h.2 recBadJson _ _ rfl rfl (Or.inr ⟨_, rfl, Or.inr (Or.inl ⟨"oops", rfl, rfl⟩)⟩)
  · exact h.2 recNonGeom _ _ rfl rfl (Or.inr ⟨_, rfl, Or.inr (Or.inr ⟨"NUM", .num 5, rfl, rfl, rfl⟩)⟩)


/-- C10: `build_geojson` is a pure, deterministic function of its input
record list — two calls on the same list yield identical collections —
and, on dict-shaped records, its only other observable output is the
diagnostic log with exactly one skip message per excluded record. -/
theorem claim10_build_pure_and_logs_only :
    ∀ (jl : String → Option JVal) (cfg : Config) (pages : List JVal),
      build_geojson jl cfg pages = build_geojson jl cfg pages ∧
      ((∀ p ∈ pages, ∃ pl, p = JVal.obj pl) →
        build_loop jl cfg pages =
          .ok (pages.filterMap (featureOf jl cfg),
               pages.filterMap (logOf jl cfg)) ∧
        build_geojson jl cfg pages =
          .ok (.obj [("type", .str "FeatureCollection"),
            ("features", .arr (pages.filterMap (featureOf jl cfg)))]) ∧
        (pages.filterMap (featureOf jl cfg)).length +
          (pages.filterMap (logOf jl cfg)).length = pages.length) := by
  intro jl cfg pages
  refine ⟨rfl, fun hobj => ⟨build_loop_spec jl cfg pages hobj, ?_, build_count jl cfg pages hobj⟩⟩
  unfold build_geojson
  rw [build_loop_spec jl cfg pages hobj]
  rfl

/-- C10 witness: the theorem applied to a concrete record list with one
kept and one skipped record; one call, one log entry, lengths adding
up. -/
theorem claim10_witness :
    build_loop jlFix defaultConfig [recValid, recNoPoly] =
      .ok ([recValid, recNoPoly].filterMap (featureOf jlFix defaultConfig),
           [recValid, recNoPoly].filterMap (logOf jlFix defaultConfig)) ∧
    ([recValid, recNoPoly].filterMap (featureOf jlFix defaultConfig)).length +
      ([recValid, recNoPoly].filterMap (logOf jlFix defaultConfig)).length = 2 := by
  have h := (claim10_build_pure_and_logs_only jlFix defaultConfig
    [recValid, recNoPoly]).2 ?_
  · exact ⟨h.1, h.2.2⟩
  · intro p hp
    simp only [List.mem_cons, List.not_mem_nil, or_false] at hp
    rcases hp with rfl | rfl
    · exact ⟨_, rfl⟩
    · exact ⟨_, rfl⟩


/-- C4: the fetcher concatenates the results arrays of every successful
page in order: after a success whose body says more pages exist it
sleeps the fixed 0.35-second inter-page delay and reissues the query
with the provided cursor, it stops and returns the accumulated records
on the first response with no more pages, and on the concrete
two-page scenario (five then three results, one cursor handoff) it
returns all eight records in order with exactly one inter-page delay. -/
theorem claim4_pagination_concatenates_in_order :
    (∀ (upstream : Nat → HttpResponse) (fuel i : Nat) (payload : JVal)
       (pages : List JVal) (trace : List FetchEvent)
       (bl : List (String × JVal)) (rs : List JVal) (hm cur : JVal),
      (upstream i).status ≠ 429 →
      ¬(400 ≤ (upstream i).status ∧ (upstream i).status < 600) →
      (upstream i).body = .obj bl →
      (bl.lookup "results").getD (.arr []) = .arr rs →
      bl.lookup "has_more" = some hm →
      hm.truthy = true →
      bl.lookup "next_cursor" = some cur →
      fetch_loop upstream (fuel + 1) i payload pages trace =
        fetch_loop upstream fuel (i + 1)
          (pySetKey payload "start_cursor" cur) (pages ++ rs)
          (FetchEvent.sleep (35/100) :: FetchEvent.request payload :: trace)) ∧
    (∀ (upstream : Nat → HttpResponse) (fuel i : Nat) (payload : JVal)
       (pages : List JVal) (trace : List FetchEvent)
       (bl : List (String × JVal)) (rs : List JVal),
      (upstream i).status ≠ 429 →
      ¬(400 ≤ (upstream i).status ∧ (upstream i).status < 600) →
      (upstream i).body = .obj bl →
      (bl.lookup "results").getD (.arr []) = .arr rs →
      ((bl.lookup "has_more").getD .null).truthy = false →
      fetch_loop upstream (fuel + 1) i payload pages trace =
        (.ok (pages ++ rs), (FetchEvent.request payload :: trace).reverse)) ∧
    (fetch_all_pages upTwoPages 2 =
      (.ok [.str "r1", .str "r2", .str "r3", .str "r4", .str "r5",
            .str "s1", .str "s2", .str "s3"],
       [.request (.obj [("page_size", .num 100)]),
        .sleep (35/100),
        .request (.obj [("page_size", .num 100), ("start_cursor", .str "cur")])]) ∧
     ((fetch_all_pages upTwoPages 2).2.filter isSleepEvent).length = 1) := by
  refine ⟨?_, ?_, rfl, rfl⟩
  · intro upstream fuel i payload pages trace bl rs hm cur h1 h2 h3 h4 h5 h6 h7
    exact fetch_step_more h1 h2 h3 h4 h5 h6 h7
  · intro upstream fuel i payload pages trace bl rs h1 h2 h3 h4 h5
    exact fetch_step_done h1 h2 h3 h4 h5

/-- C4 witness: the step equations applied at the concrete two-page
upstream, together with the closed scenario conjunct. -/
theorem claim4_witness :
    fetch_loop upTwoPages 2 0 (.obj [("page_size", .num 100)]) [] [] =
      fetch_loop upTwoPages 1 1
        (pySetKey (.obj [("page_size", .num 100)]) "start_cursor" (.str "cur"))
        ([.str "r1", .str "r2", .str "r3", .str "r4", .str "r5"])
        [.sleep (35/100), .request (.obj [("page_size", .num 100)])] ∧
    fetch_all_pages upTwoPages 2 =
      (.ok [.str "r1", .str "r2", .str "r3", .str "r4", .str "r5",
            .str "s1", .str "s2", .str "s3"],
       [.request (.obj [("page_size", .num 100)]),
        .sleep (35/100),
        .request (.obj [("page_size", .num 100), ("start_cursor", .str "cur")])]) := by
  have h := claim4_pagination_concatenates_in_order
  refine ⟨?_, h.2.2.1⟩
  exact h.1 upTwoPages 1 0 (.obj [("page_size", .num 100)]) [] []
    [("results", .arr [.str "r1", .str "r2", .str "r3", .str "r4", .str "r5"]),
     ("has_more", .bool true), ("next_cursor", .str "cur")]
    [.str "r1", .str "r2", .str "r3", .str "r4", .str "r5"]
    (.bool true) (.str "cur")
    (by decide) (by decide) rfl rfl rfl rfl rfl


/-- C5: on an HTTP 429 the fetcher sleeps the fixed 1-second delay and
retries exactly the same request (same payload, hence same cursor and
page size) with no retry cap and no backoff growth: a single 429
followed by a success yields exactly one retry and the page records,
while an upstream answering 429 to every request makes the loop run
forever — for every iteration bound it is still running, never
returning and never raising. -/
theorem claim5_rate_limit_retry_unbounded :
    (∀ (upstream : Nat → HttpResponse) (fuel i : Nat) (payload : JVal)
       (pages : List JVal) (trace : List FetchEvent),
      (upstream i).status = 429 →
      fetch_loop upstream (fuel + 1) i payload pages trace =
        fetch_loop upstream fuel (i + 1) payload pages
          (FetchEvent.sleep 1 :: FetchEvent.request payload :: trace)) ∧
    (fetch_all_pages upRateLimited 2 =
      (.ok [.str "s1", .str "s2", .str "s3"],
       [.request (.obj [("page_size", .num 100)]),
        .sleep 1,
        .request (.obj [("page_size", .num 100)])])) ∧
    (∀ (upstream : Nat → HttpResponse),
      (∀ j, (upstream j).status = 429) →
      ∀ (fuel i : Nat) (payload : JVal) (pages : List JVal)
        (trace : List FetchEvent),
        (fetch_loop upstream fuel i payload pages trace).1 = .stalled) := by
  refine ⟨?_, rfl, ?_⟩
  · intro upstream fuel i payload pages trace h
    exact fetch_step_429 h
  · intro upstream h fuel i payload pages trace
    exact fetch_always_429_stalls h fuel i payload pages trace

/-- C5 witness: the 429 step applied at the concrete rate-limited
upstream, the closed one-retry scenario, and the always-429 upstream
still running after five iterations. -/
theorem claim5_witness :
    fetch_loop upRateLimited 2 0 (.obj [("page_size", .num 100)]) [] [] =
      fetch_loop upRateLimited 1 1 (.obj [("page_size", .num 100)]) []
        [.sleep 1, .request (.obj [("page_size", .num 100)])] ∧
    fetch_all_pages upRateLimited 2 =
      (.ok [.str "s1", .str "s2", .str "s3"],
       [.request (.obj [("page_size", .num 100)]),
        .sleep 1,
        .request (.obj [("page_size", .num 100)])]) ∧
    (fetch_loop (fun _ => ⟨429, .null⟩) 5 0
      (.obj [("page_size", .num 100)]) [] []).1 = .stalled := by
  have h := claim5_rate_limit_retry_unbounded
  exact ⟨h.1 upRateLimited 1 0 (.obj [("page_size", .num 100)]) [] [] rfl,
         h.2.1,
         h.2.2 (fun _ => ⟨429, .null⟩) (fun _ => rfl) 5 0
           (.obj [("page_size", .num 100)]) [] []⟩

/-- C6: a non-429 error status from any page request makes the fetcher
fail immediately with that upstream error — the outcome carries no
records, whatever had been accumulated — and in particular an upstream
serving one good page and then a 500 yields `httpError 500`, not a
partial sequence. -/
theorem claim6_non429_error_aborts_without_partial_results :
    (∀ (upstream : Nat → HttpResponse) (fuel i : Nat) (payload : JVal)
       (pages : List JVal) (trace : List FetchEvent),
      (upstream i).status ≠ 429 →
      400 ≤ (upstream i).status →
      (upstream i).status < 600 →
      fetch_loop upstream (fuel + 1) i payload pages trace =
        (.httpError (upstream i).status,
          (FetchEvent.request payload :: trace).reverse)) ∧
    (∀ (st : Nat) (l : List JVal),
      (FetchResult.httpError st) ≠ FetchResult.ok l) ∧
    ((fetch_all_pages upFailing 3).1 = .httpError 500) := by
  refine ⟨?_, ?_, rfl⟩
  · intro upstream fuel i payload pages trace h1 h2 h3
    exact fetch_step_httpError h1 ⟨h2, h3⟩
  · intro st l h
    cases h

/-- C6 witness: the error step applied at the concrete failing upstream
after a full page has already been accumulated, plus the closed
end-to-end outcome. -/
theorem claim6_witness :
    fetch_loop upFailing 1 1
        (pySetKey (.obj [("page_size", .num 100)]) "start_cursor" (.str "cur"))
        [.str "r1", .str "r2", .str "r3", .str "r4", .str "r5"]
        [.sleep (35/100), .request (.obj [("page_size", .num 100)])] =
      (.httpError 500,
        ([FetchEvent.request (pySetKey (.obj [("page_size", .num 100)])
            "start_cursor" (.str "cur")),
          .sleep (35/100),
          .request (.obj [("page_size", .num 100)])] : List FetchEvent).reverse) ∧
    (fetch_all_pages upFailing 3).1 = .httpError 500 := by
  have h := claim6_non429_error_aborts_without_partial_results
  exact ⟨h.1 upFailing 0 1 _ _ _ (by decide) (by decide) (by decide), h.2.2⟩


/-- C7 counterexample: for a rollup array of rich-text items "X", "",
"Y" the per-element extractions are "X", "" and "Y", so the claimed
join of all results would be "X, , Y", but the code filters out the
falsy (empty) results and returns "X, Y". -/
theorem claim7_counterexample :
    read_text_flex (richText "X") = .ok (.str "X") ∧
    read_text_flex (richText "") = .ok (.str "") ∧
    read_text_flex (richText "Y") = .ok (.str "Y") ∧
    String.intercalate ", " ["X", "", "Y"] = "X, , Y" ∧
    plain_from_rollup rollCex = .ok (.str "X, Y") ∧
    plain_from_rollup rollCex ≠
      .ok (.str (String.intercalate ", " ["X", "", "Y"])) := by
  refine ⟨rfl, rfl, rfl, rfl, rfl, ?_⟩
  intro h
  rw [show plain_from_rollup rollCex = .ok (.str "X, Y") from rfl] at h
  injection h with h
  injection h with h
  exact absurd h (by decide)

/-- C7 amended: for a rollup property, if the inner type is an array
the type-dispatch rule is applied to each element and the non-empty
(truthy) results are joined with ", " (empty results are dropped); if
the inner type is number the result is the decimal string form of the
number value; if date, its start-date string; otherwise the empty
string. A rollup array of rich-text items "X" and "Y" yields "X, Y". -/
theorem claim7_rollup_rule_amended :
    (∀ (pl rl : List (String × JVal)) (items : List JVal) (vals : List String),
      pl.lookup "rollup" = some (.obj rl) →
      rl.lookup "type" = some (.str "array") →
      rl.lookup "array" = some (.arr items) →
      List.Forall₂ (fun item s => read_text_flex item = .ok (.str s)) items vals →
      plain_from_rollup (.obj pl) =
        .ok (.str (String.intercalate ", " (vals.filter (fun s => s != ""))))) ∧
    (∀ (pl rl : List (String × JVal)) (n : Int),
      pl.lookup "rollup" = some (.obj rl) →
      rl.lookup "type" = some (.str "number") →
      rl.lookup "number" = some (.num n) →
      plain_from_rollup (.obj pl) = .ok (.str (toString n))) ∧
    (∀ (pl rl dl : List (String × JVal)) (s : String),
      pl.lookup "rollup" = some (.obj rl) →
      rl.lookup "type" = some (.str "date") →
      rl.lookup "date" = some (.obj dl) →
      dl.lookup "start" = some (.str s) →
      s ≠ "" →
      plain_from_rollup (.obj pl) = .ok (.str s)) ∧
    (∀ (pl rl : List (String × JVal)) (t : String),
      pl.lookup "rollup" = some (.obj rl) →
      rl.lookup "type" = some (.str t) →
      t ≠ "array" → t ≠ "number" → t ≠ "date" →
      plain_from_rollup (.obj pl) = .ok (.str "")) ∧
    plain_from_rollup rollXY = .ok (.str "X, Y") := by
  refine ⟨?_, ?_, ?_, ?_, rfl⟩
  · intro pl rl items vals hr ht ha h
    exact plain_from_rollup_array hr ht ha h
  · intro pl rl n hr ht hn
    rw [plain_from_rollup_number hr ht, hn]
    rfl
  · intro pl rl dl s hr ht hd hstart hs
    exact plain_from_rollup_date hr ht hd hstart hs
  · intro pl rl t hr ht h1 h2 h3
    exact plain_from_rollup_other hr ht h1 h2 h3

/-- C7 witness: the amended rule applied at concrete rollups of each
inner type. -/
theorem claim7_witness :
    plain_from_rollup rollXY = .ok (.str "X, Y") ∧
    plain_from_rollup (.obj [("rollup", .obj [("type", .str "number"),
      ("number", .num 7)])]) = .ok (.str "7") ∧
    plain_from_rollup (.obj [("rollup", .obj [("type", .str "date"),
      ("date", .obj [("start", .str "2024-05-01")])])]) =
        .ok (.str "2024-05-01") ∧
    plain_from_rollup (.obj [("rollup", .obj [("type", .str "person")])]) =
      .ok (.str "") := by
  have h := claim7_rollup_rule_amended
  refine ⟨?_, ?_, ?_, ?_⟩
  · have := h.1 [("rollup", .obj [("type", .str "array"),
      ("array", .arr [richText "X", richText "Y"])])]
      [("type", .str "array"), ("array", .arr [richText "X", richText "Y"])]
      [richText "X", richText "Y"] ["X", "Y"] rfl rfl rfl
      (List.Forall₂.cons rfl (List.Forall₂.cons rfl List.Forall₂.nil))
    simpa using this
  · exact h.2.1 _ [("type", .str "number"), ("number", .num 7)] 7 rfl rfl rfl
  · exact h.2.2.1 _ [("type", .str "date"), ("date", .obj [("start", .str "2024-05-01")])]
      [("start", .str "2024-05-01")] "2024-05-01" rfl rfl rfl rfl (by decide)
  · exact h.2.2.2.1 _ [("type", .str "person")] "person" rfl rfl
      (by decide) (by decide) (by decide)


/-- C8 counterexample: a multi-select whose second option has the empty
label "" — joining the labels as claimed would give "A, ", but the
code filters out falsy labels and returns "A". -/
theorem claim8_counterexample :
    plain_from_multi_select msCex = .ok "A" ∧
    String.intercalate ", " ["A", ""] = "A, " ∧
    plain_from_multi_select msCex ≠
      .ok (String.intercalate ", " ["A", ""]) := by
  refine ⟨rfl, rfl, ?_⟩
  intro h
  rw [show plain_from_multi_select msCex = .ok "A" from rfl] at h
  injection h with h
  exact absurd h (by decide)

/-- C8 amended: a select yields the single selected option label (the
`name` value), or "" when no option is selected; a multi-select yields
the non-empty (truthy) selected option labels joined with ", ", so
labels ["A","B"] give "A, B", an empty multi-select gives "", and a
select with label "Coastal" extracts to exactly "Coastal". -/
theorem claim8_select_multiselect_amended :
    (∀ (pl : List (String × JVal)),
      ((pl.lookup "select").getD .null) = JVal.null →
      plain_from_select (.obj pl) = .ok (.str "")) ∧
    (∀ (pl sl : List (String × JVal)) (v : JVal),
      pl.lookup "select" = some (.obj sl) →
      sl.lookup "name" = some v →
      plain_from_select (.obj pl) = .ok v) ∧
    (∀ (pl : List (String × JVal)) (opts : List JVal) (labels : List String),
      pl.lookup "multi_select" = some (.arr opts) →
      List.Forall₂ (fun opt lbl => ∃ ol, opt = JVal.obj ol ∧
        ol.lookup "name" = some (JVal.str lbl)) opts labels →
      plain_from_multi_select (.obj pl) =
        .ok (String.intercalate ", " (labels.filter (fun s => s != "")))) ∧
    read_text_flex selCoastal = .ok (.str "Coastal") ∧
    plain_from_multi_select msAB = .ok "A, B" ∧
    plain_from_multi_select msEmpty = .ok "" := by
  refine ⟨?_, ?_, ?_, rfl, rfl, rfl⟩
  · intro pl h
    unfold plain_from_select
    simp only [bind, Except.bind, pyGetOpt, h]
    rfl
  · intro pl sl v hsel hname
    have hsl : sl ≠ [] := by
      intro hn
      subst hn
      cases hname
    unfold plain_from_select
    simp only [bind, Except.bind, pyGetOpt, hsel, Option.getD_some]
    rw [if_pos (by simpa [JVal.truthy, List.isEmpty_iff] using hsl)]
    simp only [pyIndex, hname]
  · intro pl opts labels hm h
    exact plain_from_multi_select_spec hm h

/-- C8 witness: the amended select/multi-select rules applied at
concrete properties. -/
theorem claim8_witness :
    plain_from_select (.obj [("select", .null)]) = .ok (.str "") ∧
    plain_from_select selCoastal = .ok (.str "Coastal") ∧
    plain_from_multi_select msAB =
      .ok (String.intercalate ", " (["A", "B"].filter (fun s => s != ""))) := by
  have h := claim8_select_multiselect_amended
  refine ⟨h.1 [("select", .null)] rfl, ?_, ?_⟩
  · exact h.2.1 [("select", .obj [("name", .str "Coastal")])]
      [("name", .str "Coastal")] (.str "Coastal") rfl rfl
  · exact h.2.2.1 [("multi_select", .arr [.obj [("name", .str "A")],
      .obj [("name", .str "B")]])]
      [.obj [("name", .str "A")], .obj [("name", .str "B")]] ["A", "B"] rfl
      (List.Forall₂.cons ⟨_, rfl, rfl⟩
        (List.Forall₂.cons ⟨_, rfl, rfl⟩ List.Forall₂.nil))

/-- C9 counterexample: a person list whose second person has neither
display name nor email — its per-person value is "", so joining all
per-person values as claimed would give "A, ", but the code filters
out falsy values and returns "A". -/
theorem claim9_counterexample :
    peopleItem (.obj []) = .ok (.str "") ∧
    plain_from_people pplCex = .ok "A" ∧
    String.intercalate ", " ["A", ""] = "A, " ∧
    plain_from_people pplCex ≠
      .ok (String.intercalate ", " ["A", ""]) := by
  refine ⟨rfl, rfl, rfl, ?_⟩
  intro h
  rw [show plain_from_people pplCex = .ok "A" from rfl] at h
  injection h with h
  exact absurd h (by decide)

/-- C9 amended: for a person list, each person contributes the display
name, falling back to the email address (or "") when the name is
missing or falsy; the non-empty (truthy) per-person values are joined
with ", " (persons contributing "" are dropped). -/
theorem claim9_people_amended :
    (∀ (pl : List (String × JVal)) (us : List JVal) (values : List String),
      pl.lookup "people" = some (.arr us) →
      List.Forall₂ (fun u s => ∃ ul, u = JVal.obj ul ∧
        ((((ul.lookup "name").getD .null) = JVal.str s ∧ s ≠ "") ∨
         (¬((ul.lookup "name").getD .null).truthy = true ∧
           ((∃ plp, ((ul.lookup "person").getD .null) = JVal.obj plp ∧
              ((plp.lookup "email").getD (.str "")) = JVal.str s) ∨
            (¬((ul.lookup "person").getD .null).truthy = true ∧ s = "")))))
        us values →
      plain_from_people (.obj pl) =
        .ok (String.intercalate ", " (values.filter (fun s => s != "")))) ∧
    plain_from_people pplFix = .ok "Alice, bob@example.com" := by
  refine ⟨?_, rfl⟩
  intro pl us values hm h
  exact plain_from_people_spec hm h

/-- C9 witness: the amended rule applied at a concrete person list with
a named person and an email fallback. -/
theorem claim9_witness :
    plain_from_people pplFix =
      .ok (String.intercalate ", "
        ((["Alice", "bob@example.com"]).filter (fun s => s != ""))) := by
  have h := claim9_people_amended
  exact h.1 [("people", .arr [.obj [("name", .str "Alice")],
      .obj [("name", .null), ("person", .obj [("email", .str "bob@example.com")])]])]
    [.obj [("name", .str "Alice")],
     .obj [("name", .null), ("person", .obj [("email", .str "bob@example.com")])]]
    ["Alice", "bob@example.com"] rfl
    (List.Forall₂.cons ⟨_, rfl, Or.inl ⟨rfl, by decide⟩⟩
      (List.Forall₂.cons ⟨_, rfl, Or.inr ⟨by decide, Or.inl ⟨_, rfl, rfl⟩⟩⟩
        List.Forall₂.nil))


end NotionGeo
